import Mathlib

/-!
Shallow embedding of the configuration core of `gomill` (files
`gomill/competitions.py` and `gomill/settings.py`), for checking the
natural-language specification against the code.

Python 2 runtime values, as far as this code inspects them, are modelled by
the inductive type `Value`.  Python dicts keyed by strings are modelled as
association lists (`List (String × β)`) whose list order is the dict's
native iteration order; `dinsert` models `d[k] = v` (replace the first
binding in place, else append) and `dlookup` models `d[k]`.

Exceptions are modelled by `Except`: the error type `PErr` distinguishes
the exception classes this code raises or lets escape (`ControlFileError`,
`ValueError`, `IndexError`, `TypeError`).

Parts of the repository that the claims depend on but that are not under
`src/` (the bodies of `load_settings`, `interpret_map_of`,
`interpret_shlex_sequence`, `interpret_8bit_string`, `interpret_bool`,
`interpret_sequence`, `interpret_identifier`, `clean_string` in
`gomill/settings.py`, the predicate `gtp_controller.is_well_formed_gtp_word`,
and the default `process_game_error` policy) are modelled from the spec;
each such definition's doc comment starts with `Modelled from the spec:`.
The ambient home directory used by `os.path.expanduser` is passed
explicitly as a `home : String` argument.
-/

namespace Gomill

/-- Python runtime values as inspected by the competitions code: byte
strings, lists, booleans, `None`, dict-or-pair-sequence values (`vpairs`,
keyed by strings — the control files in scope only use string keys), and
`Player_config` objects (`vplayer args kwargs`, from `competitions.py`
lines 31–35: a `Player_config` just records its positional and keyword
arguments). -/
inductive Value where
  | vstr : String → Value
  | vlist : List Value → Value
  | vbool : Bool → Value
  | vnone : Value
  | vpairs : List (String × Value) → Value
  | vplayer : List Value → List (String × Value) → Value

/-- Python dict lookup `d[k]` on the association-list model (first binding
wins; a well-formed dict has no duplicate keys). -/
def dlookup {β : Type} : List (String × β) → String → Option β
  | [], _ => none
  | p :: ps, k => if p.1 == k then some p.2 else dlookup ps k

/-- Python dict assignment `d[k] = v`: replace the first binding of `k` in
place, else append a new binding. -/
def dinsert {β : Type} : List (String × β) → String → β → List (String × β)
  | [], k, v => [(k, v)]
  | p :: ps, k, v => if p.1 == k then (k, v) :: ps else p :: dinsert ps k v

/-- Python `k in d`. -/
def dcontains {β : Type} (m : List (String × β)) (k : String) : Bool :=
  (dlookup m k).isSome

/-- Python `dict(m)` applied to an iterable of key/value pairs: later
duplicate keys silently overwrite earlier ones. -/
def pydict {β : Type} (l : List (String × β)) : List (String × β) :=
  l.foldl (fun m p => dinsert m p.1 p.2) []

/-- Statement helper: the value of the last pair carrying key `k`, used to
express "the later entry wins" in theorem statements. -/
def lookupLast {β : Type} : List (String × β) → String → Option β
  | [], _ => none
  | p :: ps, k =>
    match lookupLast ps k with
    | some v => some v
    | none => if p.1 == k then some p.2 else none

/-- Does the string start with `/`?  (Structural replacement for
`String.startsWith`, which does not reduce definitionally.) -/
def startsSlash (s : String) : Bool :=
  match s.data with
  | '/' :: _ => true
  | _ => false

/-- Does the string start with `~`? -/
def startsTilde (s : String) : Bool :=
  match s.data with
  | '~' :: _ => true
  | _ => false

/-- Does the string end with `/`? -/
def endsSlash (s : String) : Bool :=
  match s.data.getLast? with
  | some '/' => true
  | _ => false

/-- The string without its first character. -/
def strTail (s : String) : String :=
  ⟨s.data.drop 1⟩

/-- Helper for `pysplit`: scan the characters, accumulating the current
token in reverse. -/
def pysplitGo : List Char → List Char → List String
  | [], [] => []
  | [], acc => [⟨acc.reverse⟩]
  | c :: cs, acc =>
    if c.isWhitespace then
      match acc with
      | [] => pysplitGo cs []
      | _ => ⟨acc.reverse⟩ :: pysplitGo cs []
    else pysplitGo cs (c :: acc)

/-- Python `s.split()` with no argument: split on runs of whitespace,
discarding empty pieces. -/
def pysplit (s : String) : List String :=
  pysplitGo s.data []

/-- Helper for `shlexSplit`: scan the characters with the current quote
state and the token accumulated so far (`none` = no token started). -/
def shlexGo : List Char → Option Char → Option String → List String
  | [], _, none => []
  | [], _, some t => [t]
  | c :: cs, some q, t =>
    if c = q then shlexGo cs none (some (t.getD ""))
    else shlexGo cs (some q) (some ((t.getD "").push c))
  | c :: cs, none, t =>
    if c = '\'' ∨ c = '"' then shlexGo cs (some c) (some (t.getD ""))
    else if c.isWhitespace then
      match t with
      | none => shlexGo cs none none
      | some tok => tok :: shlexGo cs none none
    else shlexGo cs none (some ((t.getD "").push c))

/-- Modelled from the spec: `shlex.split` as used by
`interpret_shlex_sequence` (absent from `src/gomill/settings.py`) — "split
it using shell-lexing rules (whitespace-separated tokens, quoting
honored)".  Single and double quotes group characters into one token; an
unterminated quote is closed at end of input. -/
def shlexSplit (s : String) : List String :=
  shlexGo s.data none none

/-- Python `s.rstrip('/')`. -/
def rstripSlash (s : String) : String :=
  ⟨(s.data.reverse.dropWhile (fun c => c = '/')).reverse⟩

/-- Python 2 `os.path.expanduser` for POSIX, with the invoking user's home
directory passed explicitly: a path not starting with `~` is unchanged; a
bare `~` or `~/…` prefix is replaced by `home` (stripped of trailing
slashes, with `/` substituted if the result is empty); a `~user` form is
modelled as unchanged (no password database in the model). -/
def expanduser (home : String) (path : String) : String :=
  if ¬ startsTilde path then path
  else
    let rest := strTail path
    if ¬ rest.data.isEmpty ∧ ¬ startsSlash rest then path
    else
      let r := rstripSlash home ++ rest
      if r = "" then "/" else r

/-- Python 2 `os.path.join(base, p)` for POSIX with a possibly-`None` base,
as called by `resolve_pathname` (`competitions.py` line 112): an absolute
`p` is returned unchanged even when `base` is `None`; joining a relative
`p` onto `None` raises (`none` here); otherwise the parts are concatenated
with a `/` unless `base` is empty or already ends in `/`. -/
def pyJoin (base : Option String) (p : String) : Option String :=
  if startsSlash p then some p
  else
    match base with
    | none => none
    | some b => some (if b = "" ∨ endsSlash b then b ++ p else b ++ "/" ++ p)

/-- Modelled from the spec: `gtp_controller.is_well_formed_gtp_word` (the
`gtp_controller` module is not under `src/`) — a protocol word is a
non-empty token with "no ASCII control characters or deceptive
separators": every character is at least `0x21` and is not `DEL`. -/
def is_well_formed_gtp_word (s : String) : Bool :=
  ¬ s.data.isEmpty ∧ s.data.all (fun c => 0x21 ≤ c.toNat ∧ c.toNat ≠ 0x7f)

/-- Python `is_well_formed_gtp_word` applied to an arbitrary object: the
real predicate returns `False` for any non-string argument. -/
def wellFormedV : Value → Bool
  | .vstr s => is_well_formed_gtp_word s
  | _ => false

/-- Modelled from the spec: `clean_string` from `gomill/settings.py`
(absent from `src/`), which replaces control and non-ASCII characters by
`?` so that error messages stay printable. -/
def clean_string (s : String) : String :=
  ⟨s.data.map (fun c => if c.toNat ≤ 0x1f ∨ 0x7f ≤ c.toNat then '?' else c)⟩

/-- Python `repr` for the atomic values that reach error messages in this
model; nested containers are elided. -/
def pyReprAtom : Value → String
  | .vstr s => "'" ++ s ++ "'"
  | .vbool b => cond b "True" "False"
  | .vnone => "None"
  | _ => "..."

/-- Comma-separated join, used by `pyStr` for list formatting. -/
def joinComma : List String → String
  | [] => ""
  | [s] => s
  | s :: rest => s ++ ", " ++ joinComma rest

/-- Python `str(v)` (`"%s" % v`): a string formats as itself, a list as the
bracketed reprs of its elements. -/
def pyStr : Value → String
  | .vstr s => s
  | .vlist l => "[" ++ joinComma (l.map pyReprAtom) ++ "]"
  | v => pyReprAtom v

/-- A setting schema entry, from `gomill/settings.py` lines 24–46 plus the
spec's §3 data model: a name, an interpreter (failing with a `ValueError`
message), and an optional default.  In `src/` the `Setting` class stores
`default=None` for both "defaults to `None`" and "required"; the
distinction (spec: `default: Value | NO_DEFAULT`) lives in the missing
`load_settings` machinery, so here `default : Option Value` with `none`
meaning required. -/
structure Setting where
  name : String
  interpreter : Value → Except String Value
  default : Option Value

/-- Helper for `load_settings`: process the schema entries in order.  For
each entry, a present raw value is interpreted (failures re-tagged with the
setting's name); an absent value falls back to the default, or fails with a
missing-value message when the setting is required. -/
def load_settings_go (config : List (String × Value)) :
    List Setting → Except String (List (String × Value))
  | [] => .ok []
  | s :: rest =>
    match dlookup config s.name with
    | some raw =>
      match s.interpreter raw with
      | .error e => .error ("'" ++ s.name ++ "': " ++ e)
      | .ok v =>
        match load_settings_go config rest with
        | .error e => .error e
        | .ok tail => .ok ((s.name, v) :: tail)
    | none =>
      match s.default with
      | some d =>
        match load_settings_go config rest with
        | .error e => .error e
        | .ok tail => .ok ((s.name, d) :: tail)
      | none => .error ("'" ++ s.name ++ "' not specified")

/-- Modelled from the spec: `load_settings` from `gomill/settings.py`
(absent from `src/`) — §4.1: validate a raw mapping against a schema,
interpreting present values (propagating failures tagged with the
setting's name), substituting defaults for absent ones, failing on a
missing required value, and, in strict mode, failing on a raw key not
declared by any setting. -/
def load_settings (settings : List Setting) (config : List (String × Value))
    (strict : Bool) : Except String (List (String × Value)) :=
  match load_settings_go config settings with
  | .error e => .error e
  | .ok result =>
    if strict then
      match config.find? (fun p => ¬ settings.any (fun s => s.name == p.1)) with
      | some p => .error ("unknown setting '" ++ p.1 ++ "'")
      | none => .ok result
    else .ok result

/-- Modelled from the spec: `interpret_8bit_string` (absent from `src/`) —
§4.1's "UTF-8/byte string" interpreter accepts a string and returns it
unchanged, rejecting non-strings. -/
def interpret_8bit_string : Value → Except String Value
  | .vstr s => .ok (.vstr s)
  | _ => .error "not a string"

/-- Modelled from the spec: `interpret_bool` (absent from `src/`) — §4.1's
boolean interpreter accepts exactly `True`/`False`. -/
def interpret_bool : Value → Except String Value
  | .vbool b => .ok (.vbool b)
  | _ => .error "invalid True/False value"

/-- Modelled from the spec: `interpret_sequence` (absent from `src/`) —
§4.1's sequence interpreter accepts a list and returns its elements
unchanged. -/
def interpret_sequence : Value → Except String Value
  | .vlist l => .ok (.vlist l)
  | _ => .error "not a sequence"

/-- Modelled from the spec: `interpret_shlex_sequence` (absent from
`src/`) — §4.3 step 4: a single string is split by shell-lexing rules into
argv, a sequence is used as-is, and an empty result fails. -/
def interpret_shlex_sequence : Value → Except String Value
  | .vstr s =>
    match shlexSplit s with
    | [] => .error "empty"
    | ts => .ok (.vlist (ts.map .vstr))
  | v =>
    match interpret_sequence v with
    | .error e => .error e
    | .ok (.vlist []) => .error "empty"
    | .ok w => .ok w

/-- Modelled from the spec: `interpret_identifier` (absent from `src/`)
restricted to the string keys of the model — §4.1: "letters, digits,
underscore; first character non-digit", non-empty.  Returns the identifier
unchanged. -/
def interpret_identifierS (s : String) : Except String String :=
  if s = "" then .error "empty string"
  else if s.data.all (fun c => c.isAlphanum ∨ c = '_') ∧
          ¬ (s.data.headD ' ').isDigit then .ok s
  else .error ("contains forbidden character: " ++ clean_string s)

/-- Key-side `interpret_8bit_string` for the string keys of the model:
accepts any string unchanged. -/
def interpret_8bit_stringS (s : String) : Except String String :=
  .ok s

/-- The `interpret_pc` check from `competitions.py` lines 197–200: a
players-table value must be a `Player_config`. -/
def interpret_pc : Value → Except String Value
  | .vplayer args kwargs => .ok (.vplayer args kwargs)
  | _ => .error "not a Player"

/-- Helper for `interpret_map_of`: interpret each (key, value) pair,
tagging key failures with `bad key:` and value failures with the
interpreted key. -/
def interp_pairs (ki : String → Except String String)
    (vi : Value → Except String Value) :
    List (String × Value) → Except String (List (String × Value))
  | [] => .ok []
  | (k, v) :: rest =>
    match ki k with
    | .error e => .error ("bad key: " ++ e)
    | .ok k' =>
      match vi v with
      | .error e => .error ("bad value for '" ++ k' ++ "': " ++ e)
      | .ok v' =>
        match interp_pairs ki vi rest with
        | .error e => .error e
        | .ok rest' => .ok ((k', v') :: rest')

/-- Lexicographic code-point comparison of character lists: Python 2
byte-string `<=`, the order `sorted` uses on string keys. -/
def charListLe : List Char → List Char → Bool
  | [], _ => true
  | _ :: _, [] => false
  | a :: as, b :: bs =>
    if a.toNat < b.toNat then true
    else if b.toNat < a.toNat then false
    else charListLe as bs

/-- Python 2 string `<=`. -/
def strLe (a b : String) : Bool :=
  charListLe a.data b.data

/-- Key ordering used when sorting interpreted mappings. -/
def keyLe (a b : String × Value) : Prop :=
  strLe a.1 b.1 = true

instance : DecidableRel keyLe := fun a b =>
  inferInstanceAs (Decidable (strLe a.1 b.1 = true))

/-- Modelled from the spec: `interpret_map_of` (absent from `src/`) —
§4.1: the mapping interpreter "accepts an iterable of key/value pairs;
later duplicate key silently overwrites earlier" (Python `dict(m)`), and
per §4.4.3 the resulting entries are returned in a deterministic order,
sorted by key, before the key and value interpreters are applied to each
pair. -/
def interpret_map_of (ki : String → Except String String)
    (vi : Value → Except String Value) : Value → Except String Value
  | .vpairs l =>
    match interp_pairs ki vi (List.insertionSort keyLe (pydict l)) with
    | .error e => .error e
    | .ok result => .ok (.vpairs result)
  | _ => .error "not a map"

/-- The `_player_settings` schema from `competitions.py` lines 44–57.
`command` is required; the container defaults (`dict`, `list`) are the
fresh empty containers the spec requires. -/
def _player_settings : List Setting :=
  [⟨"command", interpret_shlex_sequence, none⟩,
   ⟨"cwd", interpret_8bit_string, some .vnone⟩,
   ⟨"environ", interpret_map_of interpret_8bit_stringS interpret_8bit_string,
    some .vnone⟩,
   ⟨"is_reliable_scorer", interpret_bool, some (.vbool true)⟩,
   ⟨"allow_claim", interpret_bool, some (.vbool false)⟩,
   ⟨"gtp_translations", interpret_map_of interpret_8bit_stringS interpret_8bit_string,
    some (.vpairs [])⟩,
   ⟨"startup_gtp_commands", interpret_sequence, some (.vlist [])⟩,
   ⟨"discard_stderr", interpret_bool, some (.vbool false)⟩]

/-- The Python exception classes that `game_jobs_player_from_config` and
`initialise_from_control_file` raise or let escape. -/
inductive PErr where
  | controlFileError : String → PErr
  | valueError : String → PErr
  | indexError : String → PErr
  | typeError : String → PErr

/-- Python `str(e)` on an exception: the message. -/
def errStr : PErr → String
  | .controlFileError m => m
  | .valueError m => m
  | .indexError m => m
  | .typeError m => m

/-- The `game_jobs.Player` record as populated by
`game_jobs_player_from_config` (`competitions.py` lines 238–286).  Fields
copied straight from interpreted settings keep their `Value` type, since
the Python code stores the objects unchanged. -/
structure Player where
  code : String
  cmd_args : List Value
  cwd : Option String
  environ : Value
  is_reliable_scorer : Value
  allow_claim : Value
  startup_gtp_commands : List (Value × List Value)
  gtp_translations : List (String × String)
  discard_stderr : Value

/-- The mutable state of a `Competition` object (`competitions.py` lines
66–70): its code, base directory, the attributes set from global settings
(`setattr` storage) and the players table.  Logging callbacks are omitted:
no claim concerns them and `initialise_from_control_file` must not log. -/
structure Competition where
  competition_code : String
  base_directory : Option String
  attrs : List (String × Value)
  players : List (String × Player)

/-- `Competition.__init__`. -/
def Competition.init (competition_code : String) : Competition :=
  { competition_code := competition_code, base_directory := none,
    attrs := [], players := [] }

/-- `Competition.set_base_directory` (`competitions.py` lines 82–89). -/
def set_base_directory (comp : Competition) (pathname : Option String) :
    Competition :=
  { comp with base_directory := pathname }

/-- `Competition.resolve_pathname` (`competitions.py` lines 91–115):
`None` passes through; the empty string raises `ValueError("empty
pathname")`; otherwise the pathname is `expanduser`-ed and joined onto the
base directory, the join returning an absolute pathname unchanged and
raising (wrapped as `ValueError("relative path supplied but base directory
isn't set")`) for a relative pathname with no base directory. -/
def resolve_pathname (home : String) (comp : Competition) :
    Option String → Except String (Option String)
  | none => .ok none
  | some p =>
    if p = "" then .error "empty pathname"
    else
      match pyJoin comp.base_directory (expanduser home p) with
      | some r => .ok (some r)
      | none => .error "relative path supplied but base directory isn't set"

/-- The `config['command']` handling of `competitions.py` lines 241–245:
store the interpreted argv and overwrite its first element with its
`expanduser` expansion; exceptions there (a non-string or missing first
element) become `ControlFileError("'command': …")`.  The last two branches
are unreachable for values produced by `interpret_shlex_sequence`. -/
def expand_command (home : String) : Value → Except PErr (List Value)
  | .vlist (.vstr s :: rest) => .ok (.vstr (expanduser home s) :: rest)
  | .vlist (v :: _) =>
    .error (.controlFileError ("'command': cannot expand " ++ pyStr v))
  | .vlist [] => .error (.controlFileError "'command': list index out of range")
  | v => .error (.controlFileError ("'command': " ++ pyStr v ++ " is not a list"))

/-- The `config['cwd']` handling of `competitions.py` lines 247–250:
resolve through `resolve_pathname`, wrapping any failure as
`ControlFileError("'cwd': …")`.  The last branch is unreachable for values
produced by `interpret_8bit_string` or the `None` default. -/
def resolve_cwd (home : String) (comp : Competition) : Value → Except PErr (Option String)
  | .vnone =>
    (resolve_pathname home comp none).mapError
      (fun e => .controlFileError ("'cwd': " ++ e))
  | .vstr s =>
    (resolve_pathname home comp (some s)).mapError
      (fun e => .controlFileError ("'cwd': " ++ e))
  | v => .error (.controlFileError ("'cwd': " ++ pyStr v))

/-- The per-entry tokenisation and check of `competitions.py` lines
258–268 (the inner `try`): a string entry is interpreted as an 8-bit
string and whitespace-split, any other entry is converted by `list()`
(iterating a dict yields its keys; non-iterables raise inside the `try`),
and if any resulting token fails `is_well_formed_gtp_word` the entry fails
with `ValueError("invalid command <entry>")`. -/
def startup_words (v : Value) : Except String (List Value) :=
  let words? : Option (List Value) :=
    match v with
    | .vstr s => some ((pysplit s).map .vstr)
    | .vlist l => some l
    | .vpairs l => some (l.map (fun p => .vstr p.1))
    | _ => none
  match words? with
  | none => .error ("invalid command " ++ pyStr v)
  | some words =>
    if words.all wellFormedV then .ok words
    else .error ("invalid command " ++ pyStr v)

/-- The `startup_gtp_commands` loop of `competitions.py` lines 256–271: a
per-entry `ValueError` is wrapped by the outer handler as
`ControlFileError("'startup_gtp_commands': …")`, but the
`(words[0], words[1:])` split sits outside the inner `try`, so an entry
with zero tokens raises a bare `IndexError` that the outer
`except ValueError` does not catch. -/
def startup_loop : List Value → Except PErr (List (Value × List Value))
  | [] => .ok []
  | v :: vs =>
    match startup_words v with
    | .error e => .error (.controlFileError ("'startup_gtp_commands': " ++ e))
    | .ok [] => .error (.indexError "list index out of range")
    | .ok (w :: ws) =>
      match startup_loop vs with
      | .error e => .error e
      | .ok rest => .ok ((w, ws) :: rest)

/-- Dispatch on the interpreted `startup_gtp_commands` value; the second
branch is unreachable for values produced by `interpret_sequence` or the
list default. -/
def startup_build : Value → Except PErr (List (Value × List Value))
  | .vlist entries => startup_loop entries
  | v => .error (.typeError (pyStr v ++ " is not iterable"))

/-- The per-pair checks of the `gtp_translations` loop (`competitions.py`
lines 275–279): the old-word and then the new-word must pass
`is_well_formed_gtp_word` (a non-string new-word fails the predicate),
failing with `ValueError("invalid command <cleaned word>")`. -/
def gtp_check_pair (c1 : String) (c2 : Value) : Except String String :=
  if is_well_formed_gtp_word c1 then
    match c2 with
    | .vstr s2 =>
      if is_well_formed_gtp_word s2 then .ok s2
      else .error ("invalid command " ++ clean_string s2)
    | v => .error ("invalid command " ++ pyStr v)
  else .error ("invalid command " ++ clean_string c1)

/-- The `gtp_translations` loop body of `competitions.py` lines 274–280:
check each (old-word, new-word) pair in order and assign into the result
dict, so a repeated old-word keeps the later pair's new-word. -/
def gtp_loop (acc : List (String × String)) :
    List (String × Value) → Except String (List (String × String))
  | [] => .ok acc
  | (c1, c2) :: rest =>
    match gtp_check_pair c1 c2 with
    | .ok s2 => gtp_loop (dinsert acc c1 s2) rest
    | .error e => .error e

/-- The `gtp_translations` handling of `competitions.py` lines 273–282:
run the loop, wrapping a `ValueError` as
`ControlFileError("'gtp_translations': …")`.  The second branch is
unreachable for values produced by `interpret_map_of` or the dict
default. -/
def gtp_build : Value → Except PErr (List (String × String))
  | .vpairs l =>
    (gtp_loop [] l).mapError (fun e => .controlFileError ("'gtp_translations': " ++ e))
  | v => .error (.typeError (pyStr v ++ " is not iterable"))

/-- Read a name from an interpreted settings mapping; after a successful
`load_settings` every declared name is present, so the `vnone` fallback is
unreachable. -/
def getv (config : List (String × Value)) (k : String) : Value :=
  (dlookup config k).getD .vnone

/-- The body of `game_jobs_player_from_config` after the positional-
argument handling (`competitions.py` lines 235–286): validate the keyword
mapping against `_player_settings` in strict mode (a `ValueError` there
escapes unwrapped), then build the `Player` field by field. -/
def build_player (home : String) (comp : Competition) (code : String)
    (kwargs : List (String × Value)) : Except PErr Player :=
  match load_settings _player_settings kwargs true with
  | .error e => .error (.valueError e)
  | .ok config =>
    match expand_command home (getv config "command") with
    | .error e => .error e
    | .ok cmd_args =>
      match resolve_cwd home comp (getv config "cwd") with
      | .error e => .error e
      | .ok cwd =>
        match startup_build (getv config "startup_gtp_commands") with
        | .error e => .error e
        | .ok sgc =>
          match gtp_build (getv config "gtp_translations") with
          | .error e => .error e
          | .ok tr =>
            .ok { code := code, cmd_args := cmd_args, cwd := cwd,
                  environ := getv config "environ",
                  is_reliable_scorer := getv config "is_reliable_scorer",
                  allow_claim := getv config "allow_claim",
                  startup_gtp_commands := sgc, gtp_translations := tr,
                  discard_stderr := getv config "discard_stderr" }

/-- `Competition.game_jobs_player_from_config` (`competitions.py` lines
218–286).  The `Player_config` is passed as its `args`/`kwargs` fields;
since line 233 assigns into `player_config.kwargs`, the function returns
the (possibly mutated) `kwargs` alongside its result. -/
def game_jobs_player_from_config (home : String) (comp : Competition)
    (code : String) (args : List Value) (kwargs : List (String × Value)) :
    Except PErr Player × List (String × Value) :=
  if args.length > 1 then (.error (.controlFileError "too many arguments"), kwargs)
  else
    match args with
    | a :: _ =>
      if dcontains kwargs "command" then
        (.error (.controlFileError "command specified both implicitly and explicitly"),
         kwargs)
      else
        let kwargs' := dinsert kwargs "command" a
        (build_player home comp code kwargs', kwargs')
    | [] => (build_player home comp code kwargs, kwargs)

/-- The special `players` schema of `competitions.py` lines 201–204. -/
def players_setting : List Setting :=
  [⟨"players", interpret_map_of interpret_identifierS interpret_pc, none⟩]

/-- One step of the player-building loop: call
`game_jobs_player_from_config` on a `Player_config`'s `args`/`kwargs`.
The interpreted players value only holds `vplayer` entries; any other
shape errors like the attribute access on a non-`Player_config` would. -/
def build_one (home : String) (comp : Competition) (code : String) :
    Value → Except PErr Player
  | .vplayer args kwargs => (game_jobs_player_from_config home comp code args kwargs).1
  | _ => .error (.typeError "not a Player_config")

/-- The player-building loop of `competitions.py` lines 210–216: build
each player in turn, inserting it into `self.players`; any exception from
`game_jobs_player_from_config` is caught and re-raised as
`ControlFileError("player <code>: <e>")`, leaving the players built so far
in place. -/
def build_players (home : String) (comp : Competition) :
    List (String × Value) → Competition × Option PErr
  | [] => (comp, none)
  | (code, pc) :: rest =>
    match build_one home comp code pc with
    | .error e =>
      (comp, some (.controlFileError ("player " ++ code ++ ": " ++ errStr e)))
    | .ok player =>
      build_players home { comp with players := dinsert comp.players code player } rest

/-- `Competition.initialise_from_control_file` (`competitions.py` lines
162–216), with the subclass's `global_settings` list passed explicitly:
load the global settings (a `ValueError` becomes a `ControlFileError`) and
set each as an attribute; load the `players` special setting; reset
`self.players` and run the player-building loop.  Python mutates `self`,
so the (partially) updated state is returned alongside the outcome. -/
def initialise_from_control_file (home : String) (gs : List Setting)
    (comp : Competition) (config : List (String × Value)) :
    Competition × Option PErr :=
  match load_settings gs config false with
  | .error e => (comp, some (.controlFileError e))
  | .ok to_set =>
    let comp := { comp with
      attrs := to_set.foldl (fun m p => dinsert m p.1 p.2) comp.attrs }
    match load_settings players_setting config false with
    | .error e => (comp, some (.controlFileError e))
    | .ok specials =>
      let comp := { comp with players := [] }
      match getv specials "players" with
      | .vpairs entries => build_players home comp entries
      | _ => (comp, some (.typeError "players value is not a pair sequence"))

/-- A job record: the lifecycle contract only requires that a job carry
identity. -/
structure Job where
  id : String

/-- Modelled from the spec: the default `process_game_error` policy
(§4.5).  The `Competition` base class in `src/` only declares the method
(`competitions.py` lines 350–372, raising `NotImplementedError`); the
default implementation lives outside `src/`.  Returns
`(stop_competition, retry_game)`: retry always, stop the competition when
the job has already failed before. -/
def process_game_error (_job : Job) (previous_error_count : Nat) : Bool × Bool :=
  (previous_error_count > 0, true)

/-! Helper lemmas about the dict model. -/

theorem dlookup_dinsert {β : Type} (m : List (String × β)) (k k' : String) (v : β) :
    dlookup (dinsert m k v) k' = if k' = k then some v else dlookup m k' := by
  induction m with
  | nil =>
    by_cases h : k' = k
    · subst h; simp [dinsert, dlookup]
    · simp [dinsert, dlookup, beq_iff_eq, h, Ne.symm h]
  | cons p ps ih =>
    by_cases hp : p.1 = k
    · by_cases h : k' = k
      · subst h
        simp [dinsert, dlookup, hp, beq_iff_eq]
      · have hpk' : ¬ p.1 = k' := fun hh => h ((hp.symm.trans hh).symm)
        simp [dinsert, dlookup, hp, h, hpk', Ne.symm h, beq_iff_eq]
    · by_cases hq : p.1 = k'
      · have hk : ¬ k' = k := fun hh => hp (hq.trans hh)
        simp [dinsert, dlookup, hp, hq, hk, beq_iff_eq]
      · simp [dinsert, dlookup, hp, hq, beq_iff_eq, ih]

theorem dcontains_dinsert_self {β : Type} (m : List (String × β)) (k : String) (v : β) :
    dcontains (dinsert m k v) k = true := by
  simp [dcontains, dlookup_dinsert]

theorem dcontains_dinsert {β : Type} (m : List (String × β)) (k k' : String) (v : β) :
    dcontains (dinsert m k v) k' = (k' == k || dcontains m k') := by
  by_cases h : k' = k <;> simp [dcontains, dlookup_dinsert, h]

/-! Helper lemmas about the player-building loop and the loader. -/

theorem build_players_error_shape (home : String) :
    ∀ (entries : List (String × Value)) (comp st : Competition) (e : PErr),
      build_players home comp entries = (st, some e) →
      ∃ code m, e = .controlFileError ("player " ++ code ++ ": " ++ m) := by
  intro entries
  induction entries with
  | nil =>
    intro comp st e h
    simp [build_players] at h
  | cons p rest ih =>
    intro comp st e h
    obtain ⟨code, pc⟩ := p
    rw [build_players] at h
    cases hb : build_one home comp code pc with
    | error e' =>
      rw [hb] at h
      injection h with h1 h2
      injection h2 with h3
      exact ⟨code, errStr e', h3.symm⟩
    | ok player =>
      rw [hb] at h
      exact ih _ _ _ h

theorem build_players_append (home : String) :
    ∀ (l1 l2 : List (String × Value)) (c : Competition),
      build_players home c (l1 ++ l2) =
        match build_players home c l1 with
        | (c', none) => build_players home c' l2
        | (c', some e) => (c', some e) := by
  intro l1
  induction l1 with
  | nil => intro l2 c; rfl
  | cons p rest ih =>
    intro l2 c
    obtain ⟨code, pc⟩ := p
    rw [List.cons_append, build_players, build_players]
    cases hb : build_one home c code pc with
    | error e' => rfl
    | ok player => exact ih _ _

theorem build_players_attrs (home : String) :
    ∀ (l : List (String × Value)) (c : Competition),
      (build_players home c l).1.attrs = c.attrs := by
  intro l
  induction l with
  | nil => intro c; rfl
  | cons p rest ih =>
    intro c
    obtain ⟨code, pc⟩ := p
    rw [build_players]
    cases hb : build_one home c code pc with
    | error e' => rfl
    | ok player => exact ih _

theorem build_players_keeps (home : String) :
    ∀ (l : List (String × Value)) (c : Competition) (k : String),
      dcontains c.players k = true →
      dcontains (build_players home c l).1.players k = true := by
  intro l
  induction l with
  | nil => intro c k h; exact h
  | cons p rest ih =>
    intro c k h
    obtain ⟨code, pc⟩ := p
    rw [build_players]
    cases hb : build_one home c code pc with
    | error e' => exact h
    | ok player =>
      exact ih _ k (by simp [dcontains_dinsert, h])

theorem build_players_mem (home : String) :
    ∀ (l : List (String × Value)) (c c' : Competition),
      build_players home c l = (c', none) →
      ∀ k ∈ l.map Prod.fst, dcontains c'.players k = true := by
  intro l
  induction l with
  | nil => intro c c' _ k hk; simp at hk
  | cons p rest ih =>
    intro c c' h k hk
    obtain ⟨code, pc⟩ := p
    rw [build_players] at h
    cases hb : build_one home c code pc with
    | error e' => rw [hb] at h; exact absurd ((Prod.mk.injEq _ _ _ _).mp h).2 (by simp)
    | ok player =>
      rw [hb] at h
      replace h : build_players home
          { c with players := dinsert c.players code player } rest = (c', none) := h
      rcases List.mem_map.mp hk with ⟨q, hq, hqk⟩
      subst hqk
      rcases List.mem_cons.mp hq with hq1 | hq'
      · have hc : dcontains (dinsert c.players code player) code = true := by
          simp [dcontains_dinsert]
        have hc2 := build_players_keeps home rest
          { c with players := dinsert c.players code player } code hc
        rw [h] at hc2
        simpa [hq1] using hc2
      · exact ih _ _ h q.1 (List.mem_map.mpr ⟨q, hq', rfl⟩)

theorem interpret_map_of_shape (ki : String → Except String String)
    (vi : Value → Except String Value) (x v : Value)
    (h : interpret_map_of ki vi x = .ok v) : ∃ l, v = .vpairs l := by
  cases x <;> simp [interpret_map_of] at h
  case vpairs l =>
    cases hi : interp_pairs ki vi (List.insertionSort keyLe (pydict l)) with
    | error e => rw [hi] at h; simp at h
    | ok r => rw [hi] at h; simp at h; exact ⟨r, h.symm⟩

theorem players_load_shape (config : List (String × Value))
    (specials : List (String × Value))
    (h : load_settings players_setting config false = .ok specials) :
    ∃ entries, specials = [("players", .vpairs entries)] := by
  cases hl : dlookup config "players" with
  | none =>
    simp [load_settings, players_setting, load_settings_go, hl] at h
  | some raw =>
    cases hi : interpret_map_of interpret_identifierS interpret_pc raw with
    | error e =>
      simp [load_settings, players_setting, load_settings_go, hl, hi] at h
    | ok v =>
      rcases interpret_map_of_shape _ _ _ _ hi with ⟨l, rfl⟩
      simp [load_settings, players_setting, load_settings_go, hl, hi] at h
      exact ⟨l, h.symm⟩

theorem initialise_run (home : String) (gs : List Setting) (comp : Competition)
    (config : List (String × Value)) (to_set : List (String × Value))
    (entries : List (String × Value))
    (h1 : load_settings gs config false = .ok to_set)
    (h2 : load_settings players_setting config false = .ok [("players", .vpairs entries)]) :
    initialise_from_control_file home gs comp config =
      build_players home
        { comp with attrs := to_set.foldl (fun m p => dinsert m p.1 p.2) comp.attrs,
                    players := [] } entries := by
  rw [initialise_from_control_file, h1, h2]
  rfl

/-! Helper lemmas about the lexicographic key order and sorting. -/

theorem charListLe_total : ∀ as bs : List Char,
    charListLe as bs = true ∨ charListLe bs as = true := by
  intro as
  induction as with
  | nil => intro bs; left; rfl
  | cons a as2 ih =>
    intro bs
    cases bs with
    | nil => right; rfl
    | cons b bs2 =>
      simp only [charListLe]
      by_cases hab : a.toNat < b.toNat
      · left; simp [hab]
      · by_cases hba : b.toNat < a.toNat
        · right; simp [hba]
        · rcases ih bs2 with h | h
          · left; simp [hab, hba, h]
          · right; simp [hab, hba, h]

theorem charListLe_trans : ∀ as bs cs : List Char,
    charListLe as bs = true → charListLe bs cs = true → charListLe as cs = true := by
  intro as
  induction as with
  | nil => intro bs cs _ _; rfl
  | cons a as2 ih =>
    intro bs cs h1 h2
    cases bs with
    | nil => simp [charListLe] at h1
    | cons b bs2 =>
      cases cs with
      | nil => simp [charListLe] at h2
      | cons c cs2 =>
        simp only [charListLe] at h1 h2 ⊢
        by_cases hab : a.toNat < b.toNat
        · by_cases hbc : b.toNat < c.toNat
          · simp [Nat.lt_trans hab hbc]
          · by_cases hcb : c.toNat < b.toNat
            · simp [hbc, hcb] at h2
            · have hac : a.toNat < c.toNat := by omega
              simp [hac]
        · by_cases hba : b.toNat < a.toNat
          · simp [hab, hba] at h1
          · simp only [if_neg hab, if_neg hba] at h1
            by_cases hbc : b.toNat < c.toNat
            · have hac : a.toNat < c.toNat := by omega
              simp [hac]
            · by_cases hcb : c.toNat < b.toNat
              · simp [hbc, hcb] at h2
              · simp only [if_neg hbc, if_neg hcb] at h2
                have hac : ¬ a.toNat < c.toNat := by omega
                have hca : ¬ c.toNat < a.toNat := by omega
                simp only [if_neg hac, if_neg hca]
                exact ih bs2 cs2 h1 h2

theorem charListLe_antisymm : ∀ as bs : List Char,
    charListLe as bs = true → charListLe bs as = true → as = bs := by
  intro as
  induction as with
  | nil =>
    intro bs h1 h2
    cases bs with
    | nil => rfl
    | cons b bs2 => simp [charListLe] at h2
  | cons a as2 ih =>
    intro bs h1 h2
    cases bs with
    | nil => simp [charListLe] at h1
    | cons b bs2 =>
      simp only [charListLe] at h1 h2
      by_cases hab : a.toNat < b.toNat
      · have hba : ¬ b.toNat < a.toNat := by omega
        simp [hab, hba] at h2
      · by_cases hba : b.toNat < a.toNat
        · simp [hab, hba] at h1
        · simp only [if_neg hab, if_neg hba] at h1
          simp only [if_neg hba, if_neg hab] at h2
          have hchar : a = b := by
            have hnat : a.toNat = b.toNat := by omega
            simpa [Char.ext_iff, UInt32.ext_iff] using hnat
          rw [hchar]
          exact congrArg (List.cons b) (ih bs2 h1 h2)

theorem strLe_total (a b : String) : strLe a b = true ∨ strLe b a = true :=
  charListLe_total a.data b.data

theorem strLe_trans {a b c : String} (h1 : strLe a b = true)
    (h2 : strLe b c = true) : strLe a c = true :=
  charListLe_trans a.data b.data c.data h1 h2

theorem strLe_antisymm {a b : String} (h1 : strLe a b = true)
    (h2 : strLe b a = true) : a = b := by
  cases a with
  | mk d1 =>
    cases b with
    | mk d2 => exact congrArg String.mk (charListLe_antisymm d1 d2 h1 h2)

theorem pairwise_and {α : Type} {R S : α → α → Prop} :
    ∀ {l : List α}, l.Pairwise R → l.Pairwise S →
      l.Pairwise (fun a b => R a b ∧ S a b) := by
  intro l
  induction l with
  | nil => intro _ _; exact .nil
  | cons a t ih =>
    intro h1 h2
    rw [List.pairwise_cons] at h1 h2 ⊢
    exact ⟨fun b hb => ⟨h1.1 b hb, h2.1 b hb⟩, ih h1.2 h2.2⟩

theorem sorted_nodupkeys_eq {l1 l2 : List (String × Value)}
    (hn : (l1.map Prod.fst).Nodup)
    (hs1 : l1.Pairwise keyLe) (hs2 : l2.Pairwise keyLe)
    (hp : l1.Perm l2) : l1 = l2 := by
  have hn2 : (l2.map Prod.fst).Nodup := ((hp.map Prod.fst).nodup_iff).mp hn
  have hne1 : l1.Pairwise (fun a b : String × Value => a.1 ≠ b.1) :=
    List.pairwise_map.mp hn
  have hne2 : l2.Pairwise (fun a b : String × Value => a.1 ≠ b.1) :=
    List.pairwise_map.mp hn2
  haveI : IsAntisymm (String × Value)
      (fun a b : String × Value => keyLe a b ∧ a.1 ≠ b.1) :=
    ⟨fun a b h1 h2 => absurd (strLe_antisymm h1.1 h2.1) h1.2⟩
  exact List.eq_of_perm_of_sorted hp (pairwise_and hs1 hne1) (pairwise_and hs2 hne2)

theorem insertionSort_sorted_pairs (l : List (String × Value)) :
    (List.insertionSort keyLe l).Pairwise keyLe := by
  haveI : IsTotal (String × Value) keyLe := ⟨fun a b => strLe_total a.1 b.1⟩
  haveI : IsTrans (String × Value) keyLe := ⟨fun _ _ _ h1 h2 => strLe_trans h1 h2⟩
  exact List.sorted_insertionSort keyLe l

theorem insertionSort_eq_of_perm {l1 l2 : List (String × Value)}
    (hn : (l1.map Prod.fst).Nodup) (hp : l1.Perm l2) :
    List.insertionSort keyLe l1 = List.insertionSort keyLe l2 := by
  have hperm : (List.insertionSort keyLe l1).Perm (List.insertionSort keyLe l2) :=
    (List.perm_insertionSort keyLe l1).trans
      (hp.trans (List.perm_insertionSort keyLe l2).symm)
  have hn1 : ((List.insertionSort keyLe l1).map Prod.fst).Nodup :=
    (((List.perm_insertionSort keyLe l1).map Prod.fst).nodup_iff).mpr hn
  exact sorted_nodupkeys_eq hn1 (insertionSort_sorted_pairs l1)
    (insertionSort_sorted_pairs l2) hperm

/-! Helper lemmas about `pydict` and key membership. -/

theorem dcontains_eq_mem_keys {β : Type} (m : List (String × β)) (k : String) :
    dcontains m k = true ↔ k ∈ m.map Prod.fst := by
  induction m with
  | nil => simp [dcontains, dlookup]
  | cons p ps ih =>
    simp only [dcontains] at ih ⊢
    by_cases hp : p.1 = k
    · simp [dlookup, hp]
    · simp [dlookup, hp, beq_iff_eq, Ne.symm hp, ih]

theorem dinsert_append_of_not_contains {β : Type} (m : List (String × β))
    (k : String) (v : β) (h : dcontains m k = false) :
    dinsert m k v = m ++ [(k, v)] := by
  induction m with
  | nil => rfl
  | cons p ps ih =>
    by_cases hp : p.1 = k
    · exfalso
      simp [dcontains, dlookup, hp] at h
    · have h' : dcontains ps k = false := by
        simpa [dcontains, dlookup, hp, beq_iff_eq] using h
      simp [dinsert, hp, beq_iff_eq, ih h']

theorem foldl_dinsert_id {β : Type} :
    ∀ (l acc : List (String × β)), ((acc ++ l).map Prod.fst).Nodup →
      l.foldl (fun m p => dinsert m p.1 p.2) acc = acc ++ l := by
  intro l
  induction l with
  | nil => intro acc _; simp
  | cons p t ih =>
    intro acc hn
    have hmem : p.1 ∉ acc.map Prod.fst := by
      intro hm
      rw [List.map_append, List.nodup_append] at hn
      exact hn.2.2 hm (by simp)
    have hnc : dcontains acc p.1 = false := by
      cases hb : dcontains acc p.1
      · rfl
      · exact absurd ((dcontains_eq_mem_keys acc p.1).mp hb) hmem
    rw [List.foldl_cons, dinsert_append_of_not_contains acc p.1 p.2 hnc]
    have := ih (acc ++ [p]) (by simpa using hn)
    simpa using this

theorem pydict_id_of_nodup {β : Type} (l : List (String × β))
    (hn : (l.map Prod.fst).Nodup) : pydict l = l := by
  have := foldl_dinsert_id l [] (by simpa using hn)
  simpa [pydict] using this

/-! Helper lemmas about pair interpretation. -/

theorem interpret_identifierS_keeps (k k' : String)
    (h : interpret_identifierS k = .ok k') : k' = k := by
  rw [interpret_identifierS] at h
  split at h
  · simp at h
  · split at h
    · injection h with h'
      exact h'.symm
    · simp at h

theorem interp_pairs_keys (ki : String → Except String String)
    (vi : Value → Except String Value)
    (hki : ∀ k k', ki k = .ok k' → k' = k) :
    ∀ (l r : List (String × Value)), interp_pairs ki vi l = .ok r →
      r.map Prod.fst = l.map Prod.fst := by
  intro l
  induction l with
  | nil =>
    intro r h
    simp [interp_pairs] at h
    simp [← h]
  | cons p t ih =>
    intro r h
    obtain ⟨k, v⟩ := p
    rw [interp_pairs] at h
    cases hk : ki k with
    | error e => rw [hk] at h; cases h
    | ok k' =>
      rw [hk] at h
      cases hv : vi v with
      | error e => rw [hv] at h; cases h
      | ok v' =>
        rw [hv] at h
        cases ht : interp_pairs ki vi t with
        | error e => rw [ht] at h; cases h
        | ok t' =>
          rw [ht] at h
          injection h with h'
          rw [← h']
          simp [hki k k' hk, ih t' ht]

theorem players_load_of (config : List (String × Value))
    (l entries : List (String × Value))
    (hl : dlookup config "players" = some (.vpairs l))
    (hi : interpret_map_of interpret_identifierS interpret_pc (.vpairs l) =
      .ok (.vpairs entries)) :
    load_settings players_setting config false = .ok [("players", .vpairs entries)] := by
  simp [load_settings, players_setting, load_settings_go, hl, hi]

/-! Theorems for the claims. -/

/-- C1: the default `process_game_error` policy retries a job exactly
once: with `previous_error_count = 0` it returns
`(stop_competition = False, retry_game = True)`, and with any
`previous_error_count > 0` it returns `(True, True)`, halting the whole
competition on a job's second failure. -/
theorem C1_default_process_game_error (job : Job) (n : Nat) :
    (n = 0 → process_game_error job n = (false, true)) ∧
    (n > 0 → process_game_error job n = (true, true)) := by
  constructor
  · rintro rfl; rfl
  · intro h; simp [process_game_error, h]

theorem C1_witness :
    process_game_error ⟨"j"⟩ 0 = (false, true) ∧
    process_game_error ⟨"j"⟩ 1 = (true, true) :=
  ⟨(C1_default_process_game_error ⟨"j"⟩ 0).1 rfl,
   (C1_default_process_game_error ⟨"j"⟩ 1).2 (by decide)⟩

/-- C2: building a `Player` fails with a `ControlFileError` when more than
one positional argument is given, and when one positional command is
combined with a named `command` override: positional and named command are
mutually exclusive. -/
theorem C2_positional_command_exclusive (home : String) (comp : Competition)
    (code : String) (args : List Value) (kwargs : List (String × Value)) :
    (args.length > 1 →
      (game_jobs_player_from_config home comp code args kwargs).1 =
        .error (.controlFileError "too many arguments")) ∧
    (args.length = 1 → dcontains kwargs "command" = true →
      (game_jobs_player_from_config home comp code args kwargs).1 =
        .error (.controlFileError "command specified both implicitly and explicitly")) := by
  constructor
  · intro h
    simp [game_jobs_player_from_config, h]
  · intro h hc
    obtain ⟨a, rfl⟩ := List.length_eq_one.mp h
    simp [game_jobs_player_from_config, hc]

theorem C2_witness :
    (game_jobs_player_from_config "/h" (Competition.init "t") "p"
       [.vstr "a", .vstr "b"] []).1 =
      .error (.controlFileError "too many arguments") ∧
    (game_jobs_player_from_config "/h" (Competition.init "t") "p"
       [.vstr "a"] [("command", .vstr "x")]).1 =
      .error (.controlFileError "command specified both implicitly and explicitly") :=
  ⟨(C2_positional_command_exclusive "/h" (Competition.init "t") "p"
      [.vstr "a", .vstr "b"] []).1 (by decide),
   (C2_positional_command_exclusive "/h" (Competition.init "t") "p"
      [.vstr "a"] [("command", .vstr "x")]).2 (by decide) rfl⟩

/-- C4: `resolve_pathname` passes `None` through, rejects the empty string
with "empty pathname", expands the home-directory shorthand first, returns
an absolute (post-expansion) path unchanged, joins a relative path onto
the base directory with no further normalization, and fails with
"relative path supplied but base directory isn't set" for a relative path
when no base directory is configured. -/
theorem C4_resolve_pathname (home : String) (comp : Competition) (p : String) :
    (resolve_pathname home comp none = .ok none) ∧
    (resolve_pathname home comp (some "") = .error "empty pathname") ∧
    (p ≠ "" → startsSlash (expanduser home p) = true →
      resolve_pathname home comp (some p) = .ok (some (expanduser home p))) ∧
    (p ≠ "" → startsSlash (expanduser home p) = false →
      ∀ b, comp.base_directory = some b →
      resolve_pathname home comp (some p) =
        .ok (some (if b = "" ∨ endsSlash b then b ++ expanduser home p
                   else b ++ "/" ++ expanduser home p))) ∧
    (p ≠ "" → startsSlash (expanduser home p) = false →
      comp.base_directory = none →
      resolve_pathname home comp (some p) =
        .error "relative path supplied but base directory isn't set") := by
  refine ⟨rfl, rfl, ?_, ?_, ?_⟩
  · intro hp habs
    simp [resolve_pathname, pyJoin, hp, habs]
  · intro hp habs b hb
    simp [resolve_pathname, pyJoin, hp, habs, hb]
  · intro hp habs hb
    simp [resolve_pathname, pyJoin, hp, habs, hb]

theorem C4_witness :
    resolve_pathname "/home/u" (set_base_directory (Competition.init "t") (some "/base"))
      (some "rel/sub") = .ok (some "/base/rel/sub") ∧
    resolve_pathname "/home/u" (Competition.init "t") (some "rel") =
      .error "relative path supplied but base directory isn't set" ∧
    resolve_pathname "/home/u" (Competition.init "t") (some "~/tmp") =
      .ok (some "/home/u/tmp") :=
  ⟨(C4_resolve_pathname "/home/u"
      (set_base_directory (Competition.init "t") (some "/base")) "rel/sub").2.2.2.1
      (by decide) rfl "/base" rfl,
   (C4_resolve_pathname "/home/u" (Competition.init "t") "rel").2.2.2.2
      (by decide) rfl rfl,
   (C4_resolve_pathname "/home/u" (Competition.init "t") "~/tmp").2.2.1
      (by decide) rfl⟩

/-- C5: the claim says an ill-formed token or a zero-token
`startup_gtp_commands` entry fails with
`ControlFileError("'startup_gtp_commands': invalid command <entry>")`.
The ill-formed-token half holds, but a zero-token entry instead raises a
bare `IndexError` (`words[0]` at `competitions.py` line 269 sits outside
the inner `try`, and the outer handler only catches `ValueError`),
contradicting the function's own docstring, which promises a
`ControlFileError` for configuration errors. -/
theorem C5_startup_zero_token_bug :
    (game_jobs_player_from_config "/h" (Competition.init "t") "t1" [.vstr "test"]
       [("startup_gtp_commands", .vlist [.vstr ""])]).1 =
      .error (.indexError "list index out of range") ∧
    (game_jobs_player_from_config "/h" (Competition.init "t") "t1" [.vstr "test"]
       [("startup_gtp_commands", .vlist [.vstr "fo\x01o bar"])]).1 =
      .error (.controlFileError "'startup_gtp_commands': invalid command fo\x01o bar") :=
  ⟨rfl, rfl⟩

/-- C9: `game_jobs_player_from_config` is not effect-free: with one
positional argument and no named `command`, the call writes the positional
value into the description's keyword mapping under `command`, and a second
call on the mutated description (after a successful first call) fails with
`ControlFileError("command specified both implicitly and explicitly")`. -/
theorem C9_kwargs_mutation (home : String) (comp : Competition) (code : String)
    (a : Value) (kwargs : List (String × Value))
    (h : dcontains kwargs "command" = false) :
    ((game_jobs_player_from_config home comp code [a] kwargs).2 =
       dinsert kwargs "command" a) ∧
    (∀ p, (game_jobs_player_from_config home comp code [a] kwargs).1 = .ok p →
      (game_jobs_player_from_config home comp code [a]
         ((game_jobs_player_from_config home comp code [a] kwargs).2)).1 =
        .error (.controlFileError "command specified both implicitly and explicitly")) := by
  constructor
  · simp [game_jobs_player_from_config, h]
  · intro p _
    simp [game_jobs_player_from_config, h, dcontains_dinsert_self]

theorem C9_witness :
    (game_jobs_player_from_config "/h" (Competition.init "t") "t1"
       [.vstr "test"] []).2 = dinsert [] "command" (.vstr "test") ∧
    (game_jobs_player_from_config "/h" (Competition.init "t") "t1" [.vstr "test"]
       ((game_jobs_player_from_config "/h" (Competition.init "t") "t1"
          [.vstr "test"] []).2)).1 =
      .error (.controlFileError "command specified both implicitly and explicitly") :=
  ⟨(C9_kwargs_mutation "/h" (Competition.init "t") "t1" (.vstr "test") [] rfl).1,
   (C9_kwargs_mutation "/h" (Competition.init "t") "t1" (.vstr "test") [] rfl).2 _ rfl⟩

theorem load_player_settings_command (v r : Value)
    (h : interpret_shlex_sequence v = .ok r) :
    load_settings _player_settings [("command", v)] true =
      .ok [("command", r), ("cwd", .vnone), ("environ", .vnone),
           ("is_reliable_scorer", .vbool true), ("allow_claim", .vbool false),
           ("gtp_translations", .vpairs []), ("startup_gtp_commands", .vlist []),
           ("discard_stderr", .vbool false)] := by
  simp [load_settings, load_settings_go, _player_settings, dlookup, h]

theorem build_player_command_only (home : String) (comp : Competition)
    (code : String) (v : Value) (c0 : String) (crest : List Value)
    (h : interpret_shlex_sequence v = .ok (.vlist (.vstr c0 :: crest))) :
    build_player home comp code [("command", v)] =
      .ok { code := code, cmd_args := .vstr (expanduser home c0) :: crest,
            cwd := none, environ := .vnone, is_reliable_scorer := .vbool true,
            allow_claim := .vbool false, startup_gtp_commands := [],
            gtp_translations := [], discard_stderr := .vbool false } := by
  rw [build_player, load_player_settings_command v _ h]
  rfl

/-- C6: command interpretation in `game_jobs_player_from_config`: a
single-string `command` is shell-lexed into argv with the home-directory
shorthand expanded only in the first element; a sequence `command` is used
as-is (again with only the first element expanded, later elements
unchanged); an empty resulting argv fails. -/
theorem C6_command_interpretation (home : String) (comp : Competition)
    (code : String) (s : String) (l : List Value) :
    (∀ c0 crest, shlexSplit s = c0 :: crest →
      ((game_jobs_player_from_config home comp code [] [("command", .vstr s)]).1.map
         Player.cmd_args) =
        .ok (.vstr (expanduser home c0) :: crest.map .vstr)) ∧
    (shlexSplit s = [] →
      (game_jobs_player_from_config home comp code [] [("command", .vstr s)]).1 =
        .error (.valueError "'command': empty")) ∧
    (∀ c0 crest, l = .vstr c0 :: crest →
      ((game_jobs_player_from_config home comp code [] [("command", .vlist l)]).1.map
         Player.cmd_args) =
        .ok (.vstr (expanduser home c0) :: crest)) ∧
    (l = [] →
      (game_jobs_player_from_config home comp code [] [("command", .vlist l)]).1 =
        .error (.valueError "'command': empty")) := by
  refine ⟨?_, ?_, ?_, ?_⟩
  · intro c0 crest h
    have h' : interpret_shlex_sequence (.vstr s) = .ok (.vlist (.vstr c0 :: crest.map .vstr)) := by
      simp [interpret_shlex_sequence, h]
    show (build_player home comp code [("command", .vstr s)]).map Player.cmd_args = _
    rw [build_player_command_only home comp code _ c0 (crest.map .vstr) h']
    rfl
  · intro h
    show build_player home comp code [("command", .vstr s)] = _
    simp [build_player, load_settings, load_settings_go, _player_settings, dlookup,
          interpret_shlex_sequence, h]
  · intro c0 crest hl
    subst hl
    have h' : interpret_shlex_sequence (.vlist (.vstr c0 :: crest)) =
        .ok (.vlist (.vstr c0 :: crest)) := rfl
    show (build_player home comp code [("command", .vlist (.vstr c0 :: crest))]).map
        Player.cmd_args = _
    rw [build_player_command_only home comp code _ c0 crest h']
    rfl
  · intro hl
    subst hl
    show build_player home comp code [("command", .vlist [])] = _
    simp [build_player, load_settings, load_settings_go, _player_settings, dlookup,
          interpret_shlex_sequence, interpret_sequence]

theorem C6_witness :
    ((game_jobs_player_from_config "/home/u" (Competition.init "t") "p" []
        [("command", .vstr "~/test foo")]).1.map Player.cmd_args) =
      .ok [.vstr "/home/u/test", .vstr "foo"] ∧
    ((game_jobs_player_from_config "/home/u" (Competition.init "t") "p" []
        [("command", .vlist [.vstr "bin/test", .vstr "foo"])]).1.map Player.cmd_args) =
      .ok [.vstr "bin/test", .vstr "foo"] ∧
    (game_jobs_player_from_config "/home/u" (Competition.init "t") "p" []
        [("command", .vstr "")]).1 = .error (.valueError "'command': empty") :=
  ⟨(C6_command_interpretation "/home/u" (Competition.init "t") "p" "~/test foo" []).1
      "~/test" ["foo"] rfl,
   (C6_command_interpretation "/home/u" (Competition.init "t") "p" ""
      [.vstr "bin/test", .vstr "foo"]).2.2.1 "bin/test" [.vstr "foo"] rfl,
   (C6_command_interpretation "/home/u" (Competition.init "t") "p" "" []).2.1 rfl⟩

/-- C7: every error surfaced by `initialise_from_control_file` is a
`ControlFileError` (never a raw internal exception), and any exception
raised while building a player is re-wrapped as
`ControlFileError("player <code>: <message>")`, carrying the offending
player's code. -/
theorem C7_exceptions_wrapped (home : String) (gs : List Setting)
    (comp : Competition) (config : List (String × Value)) :
    (∀ st e, initialise_from_control_file home gs comp config = (st, some e) →
       ∃ m, e = .controlFileError m) ∧
    (∀ (c : Competition) (code : String) (pc : Value)
       (rest : List (String × Value)) (e : PErr),
       build_one home c code pc = .error e →
       build_players home c ((code, pc) :: rest) =
         (c, some (.controlFileError ("player " ++ code ++ ": " ++ errStr e)))) := by
  constructor
  · intro st e h
    rw [initialise_from_control_file] at h
    cases h1 : load_settings gs config false with
    | error e1 =>
      rw [h1] at h
      injection h with ha hb
      injection hb with hc
      exact ⟨e1, hc.symm⟩
    | ok to_set =>
      rw [h1] at h
      cases h2 : load_settings players_setting config false with
      | error e2 =>
        rw [h2] at h
        injection h with ha hb
        injection hb with hc
        exact ⟨e2, hc.symm⟩
      | ok specials =>
        rw [h2] at h
        rcases players_load_shape config specials h2 with ⟨entries, rfl⟩
        replace h : build_players home
            { comp with
              attrs := to_set.foldl (fun m p => dinsert m p.1 p.2) comp.attrs,
              players := [] } entries = (st, some e) := h
        rcases build_players_error_shape home entries _ _ _ h with ⟨code, m, hm⟩
        exact ⟨"player " ++ code ++ ": " ++ m, hm⟩
  · intro c code pc rest e hb
    rw [build_players, hb]

theorem C7_witness :
    (∃ m, (PErr.controlFileError "player a: 'command' not specified") =
       .controlFileError m) ∧
    build_players "/h" (Competition.init "t") [("a", .vplayer [] [])] =
      (Competition.init "t",
       some (.controlFileError "player a: 'command' not specified")) :=
  ⟨(C7_exceptions_wrapped "/h" [] (Competition.init "t")
      [("players", .vpairs [("a", .vplayer [] [])])]).1 _ _ rfl,
   (C7_exceptions_wrapped "/h" [] (Competition.init "t") []).2
      (Competition.init "t") "a" (.vplayer [] []) []
      (.valueError "'command' not specified") rfl⟩

/-- C10: `initialise_from_control_file` is not atomic on failure: when the
prefix `pre` of the (interpreted, sorted) players list builds successfully
and the next entry fails, the returned state is exactly the state after
the prefix — the global-setting attributes remain set and the players
table retains every player built before the failing entry. -/
theorem C10_initialise_not_atomic (home : String) (gs : List Setting)
    (comp : Competition) (config to_set entries pre : List (String × Value))
    (code : String) (pc : Value) (rest : List (String × Value))
    (compPre : Competition) (e : PErr)
    (h1 : load_settings gs config false = .ok to_set)
    (h2 : load_settings players_setting config false = .ok [("players", .vpairs entries)])
    (h3 : entries = pre ++ (code, pc) :: rest)
    (h4 : build_players home
            { comp with attrs := to_set.foldl (fun m p => dinsert m p.1 p.2) comp.attrs,
                        players := [] } pre = (compPre, none))
    (h5 : build_one home compPre code pc = .error e) :
    initialise_from_control_file home gs comp config =
      (compPre, some (.controlFileError ("player " ++ code ++ ": " ++ errStr e))) ∧
    compPre.attrs = to_set.foldl (fun m p => dinsert m p.1 p.2) comp.attrs ∧
    (∀ k ∈ pre.map Prod.fst, dcontains compPre.players k = true) := by
  have hrun := initialise_run home gs comp config to_set entries h1 h2
  refine ⟨?_, ?_, ?_⟩
  · rw [hrun, h3, build_players_append, h4]
    show build_players home compPre ((code, pc) :: rest) = _
    rw [build_players, h5]
  · have ha := build_players_attrs home pre
      { comp with attrs := to_set.foldl (fun m p => dinsert m p.1 p.2) comp.attrs,
                  players := [] }
    rw [h4] at ha
    exact ha
  · exact build_players_mem home pre _ compPre h4

theorem C10_witness :
    initialise_from_control_file "/h" [⟨"k", interpret_bool, some (.vbool false)⟩]
      (Competition.init "t")
      [("k", .vbool true),
       ("players", .vpairs [("b", .vplayer [.vstr ""] []),
                            ("a", .vplayer [.vstr "test"] [])])] =
      ({ competition_code := "t", base_directory := none,
         attrs := [("k", .vbool true)],
         players := [("a", { code := "a", cmd_args := [.vstr "test"], cwd := none,
                             environ := .vnone, is_reliable_scorer := .vbool true,
                             allow_claim := .vbool false, startup_gtp_commands := [],
                             gtp_translations := [],
                             discard_stderr := .vbool false })] },
       some (.controlFileError "player b: 'command': empty")) ∧
    dcontains
      ({ competition_code := "t", base_directory := none,
         attrs := [("k", .vbool true)],
         players := [("a", { code := "a", cmd_args := [.vstr "test"], cwd := none,
                             environ := .vnone, is_reliable_scorer := .vbool true,
                             allow_claim := .vbool false, startup_gtp_commands := [],
                             gtp_translations := [],
                             discard_stderr := .vbool false })] } : Competition).players
      "a" = true := by
  have h := C10_initialise_not_atomic "/h" [⟨"k", interpret_bool, some (.vbool false)⟩]
    (Competition.init "t")
    [("k", .vbool true),
     ("players", .vpairs [("b", .vplayer [.vstr ""] []),
                          ("a", .vplayer [.vstr "test"] [])])]
    [("k", .vbool true)]
    [("a", .vplayer [.vstr "test"] []), ("b", .vplayer [.vstr ""] [])]
    [("a", .vplayer [.vstr "test"] [])]
    "b" (.vplayer [.vstr ""] []) []
    { competition_code := "t", base_directory := none,
      attrs := [("k", .vbool true)],
      players := [("a", { code := "a", cmd_args := [.vstr "test"], cwd := none,
                          environ := .vnone, is_reliable_scorer := .vbool true,
                          allow_claim := .vbool false, startup_gtp_commands := [],
                          gtp_translations := [],
                          discard_stderr := .vbool false })] }
    (.valueError "'command': empty") rfl rfl rfl rfl rfl
  exact ⟨h.1, h.2.2 "a" (by simp)⟩

/-- C3: `initialise_from_control_file` builds the players table by
iterating the interpreted `players` entries in sorted order of player
code: the interpreted entry list is key-sorted, it depends only on the
underlying mapping and not on the raw pairs' native iteration order, and
the loader runs the player builder over exactly that list, so repeated
loads of the same configuration visit players (and produce any error) in
the same order. -/
theorem C3_players_sorted_iteration :
    (∀ (l entries : List (String × Value)),
       interpret_map_of interpret_identifierS interpret_pc (.vpairs l) =
         .ok (.vpairs entries) →
       (entries.map Prod.fst).Pairwise (fun a b => strLe a b = true)) ∧
    (∀ (l1 l2 : List (String × Value)), (l1.map Prod.fst).Nodup → l1.Perm l2 →
       interpret_map_of interpret_identifierS interpret_pc (.vpairs l1) =
         interpret_map_of interpret_identifierS interpret_pc (.vpairs l2)) ∧
    (∀ (home : String) (gs : List Setting) (comp : Competition)
       (config to_set l entries : List (String × Value)),
       load_settings gs config false = .ok to_set →
       dlookup config "players" = some (.vpairs l) →
       interpret_map_of interpret_identifierS interpret_pc (.vpairs l) =
         .ok (.vpairs entries) →
       initialise_from_control_file home gs comp config =
         build_players home
           { comp with attrs := to_set.foldl (fun m p => dinsert m p.1 p.2) comp.attrs,
                       players := [] } entries) := by
  refine ⟨?_, ?_, ?_⟩
  · intro l entries h
    rw [interpret_map_of] at h
    cases hi : interp_pairs interpret_identifierS interpret_pc
        (List.insertionSort keyLe (pydict l)) with
    | error e => rw [hi] at h; cases h
    | ok r =>
      rw [hi] at h
      injection h with h'
      injection h' with h''
      subst h''
      rw [interp_pairs_keys _ _ interpret_identifierS_keeps _ _ hi]
      exact List.pairwise_map.mpr (insertionSort_sorted_pairs (pydict l))
  · intro l1 l2 hn hp
    have e1 : pydict l1 = l1 := pydict_id_of_nodup l1 hn
    have hn2 : (l2.map Prod.fst).Nodup := ((hp.map Prod.fst).nodup_iff).mp hn
    have e2 : pydict l2 = l2 := pydict_id_of_nodup l2 hn2
    have hs : List.insertionSort keyLe l1 = List.insertionSort keyLe l2 :=
      insertionSort_eq_of_perm hn hp
    simp [interpret_map_of, e1, e2, hs]
  · intro home gs comp config to_set l entries h1 hl hi
    exact initialise_run home gs comp config to_set entries h1
      (players_load_of config l entries hl hi)

theorem C3_witness :
    (([("aa", Value.vplayer [.vstr "x"] []), ("bb", Value.vplayer [.vstr "y"] [])].map
        Prod.fst).Pairwise (fun a b => strLe a b = true)) ∧
    interpret_map_of interpret_identifierS interpret_pc
        (.vpairs [("bb", .vplayer [.vstr "y"] []), ("aa", .vplayer [.vstr "x"] [])]) =
      interpret_map_of interpret_identifierS interpret_pc
        (.vpairs [("aa", .vplayer [.vstr "x"] []), ("bb", .vplayer [.vstr "y"] [])]) ∧
    initialise_from_control_file "/h" [] (Competition.init "t")
        [("players", .vpairs [("bb", .vplayer [.vstr "y"] []),
                              ("aa", .vplayer [.vstr "x"] [])])] =
      build_players "/h" { Competition.init "t" with attrs := [], players := [] }
        [("aa", .vplayer [.vstr "x"] []), ("bb", .vplayer [.vstr "y"] [])] :=
  ⟨C3_players_sorted_iteration.1
     [("bb", .vplayer [.vstr "y"] []), ("aa", .vplayer [.vstr "x"] [])]
     [("aa", .vplayer [.vstr "x"] []), ("bb", .vplayer [.vstr "y"] [])] rfl,
   C3_players_sorted_iteration.2.1
     [("bb", .vplayer [.vstr "y"] []), ("aa", .vplayer [.vstr "x"] [])]
     [("aa", .vplayer [.vstr "x"] []), ("bb", .vplayer [.vstr "y"] [])]
     (by decide)
     (List.Perm.swap ("aa", Value.vplayer [Value.vstr "x"] [])
       ("bb", Value.vplayer [Value.vstr "y"] []) []),
   C3_players_sorted_iteration.2.2 "/h" [] (Competition.init "t")
     [("players", .vpairs [("bb", .vplayer [.vstr "y"] []),
                           ("aa", .vplayer [.vstr "x"] [])])]
     [] [("bb", .vplayer [.vstr "y"] []), ("aa", .vplayer [.vstr "x"] [])]
     [("aa", .vplayer [.vstr "x"] []), ("bb", .vplayer [.vstr "y"] [])]
     rfl rfl rfl⟩

/-! Helper lemmas relating `dlookup`, `lookupLast`, `pydict` and
permutations, used to settle the `gtp_translations` claim. -/

theorem dlookup_mem {β : Type} :
    ∀ (m : List (String × β)) (k : String) (v : β),
      dlookup m k = some v → (k, v) ∈ m := by
  intro m
  induction m with
  | nil => intro k v h; simp [dlookup] at h
  | cons p ps ih =>
    intro k v h
    rw [dlookup] at h
    by_cases hp : p.1 = k
    · rw [if_pos (by simpa [beq_iff_eq] using hp)] at h
      injection h with h'
      have hkv : (k, v) = p := by rw [← hp, ← h']
      rw [hkv]
      exact List.mem_cons_self p ps
    · rw [if_neg (by simpa [beq_iff_eq] using hp)] at h
      exact List.mem_cons_of_mem _ (ih k v h)

theorem dlookup_none_iff {β : Type} :
    ∀ (m : List (String × β)) (k : String),
      dlookup m k = none ↔ k ∉ m.map Prod.fst := by
  intro m
  induction m with
  | nil => intro k; simp [dlookup]
  | cons p ps ih =>
    intro k
    by_cases hp : p.1 = k
    · simp [dlookup, hp, beq_iff_eq]
    · simp [dlookup, hp, beq_iff_eq, Ne.symm hp, ih]

theorem dlookup_some_iff_mem {β : Type} :
    ∀ (m : List (String × β)), (m.map Prod.fst).Nodup →
      ∀ (k : String) (v : β), (dlookup m k = some v ↔ (k, v) ∈ m) := by
  intro m
  induction m with
  | nil => intro _ k v; simp [dlookup]
  | cons p ps ih =>
    intro hn k v
    rw [List.map_cons, List.nodup_cons] at hn
    constructor
    · exact dlookup_mem _ k v
    · intro hm
      rcases List.mem_cons.mp hm with heq | hm'
      · rw [← heq]
        simp [dlookup]
      · have hk : p.1 ≠ k := by
          intro hpk
          exact hn.1 (hpk ▸ List.mem_map.mpr ⟨(k, v), hm', rfl⟩)
        rw [dlookup, if_neg (by simpa [beq_iff_eq] using hk)]
        exact (ih hn.2 k v).mpr hm'

theorem dlookup_eq_of_perm {β : Type} (m1 m2 : List (String × β))
    (hn : (m1.map Prod.fst).Nodup) (hp : m1.Perm m2) (k : String) :
    dlookup m1 k = dlookup m2 k := by
  have hn2 : (m2.map Prod.fst).Nodup := ((hp.map Prod.fst).nodup_iff).mp hn
  cases h1 : dlookup m1 k with
  | some v =>
    exact ((dlookup_some_iff_mem m2 hn2 k v).mpr
      (hp.mem_iff.mp (dlookup_mem m1 k v h1))).symm
  | none =>
    cases h2 : dlookup m2 k with
    | some v =>
      have hmem : (k, v) ∈ m1 := hp.mem_iff.mpr (dlookup_mem m2 k v h2)
      have hkey : k ∈ m1.map Prod.fst := List.mem_map.mpr ⟨(k, v), hmem, rfl⟩
      exact absurd hkey ((dlookup_none_iff m1 k).mp h1)
    | none => rfl

theorem lookupLast_mem {β : Type} :
    ∀ (m : List (String × β)) (k : String) (v : β),
      lookupLast m k = some v → (k, v) ∈ m := by
  intro m
  induction m with
  | nil => intro k v h; simp [lookupLast] at h
  | cons p ps ih =>
    intro k v h
    rw [lookupLast] at h
    cases hr : lookupLast ps k with
    | some v' =>
      rw [hr] at h
      injection h with h'
      exact List.mem_cons_of_mem _ (h' ▸ ih k v' hr)
    | none =>
      rw [hr] at h
      by_cases hp : p.1 = k
      · rw [if_pos (by simpa [beq_iff_eq] using hp)] at h
        injection h with h'
        have hkv : (k, v) = p := by rw [← hp, ← h']
        rw [hkv]
        exact List.mem_cons_self p ps
      · rw [if_neg (by simpa [beq_iff_eq] using hp)] at h
        cases h

theorem foldl_dinsert_lookup {β : Type} :
    ∀ (l acc : List (String × β)) (k : String),
      dlookup (l.foldl (fun m p => dinsert m p.1 p.2) acc) k =
        match lookupLast l k with
        | some v => some v
        | none => dlookup acc k := by
  intro l
  induction l with
  | nil => intro acc k; simp [lookupLast]
  | cons p t ih =>
    intro acc k
    rw [List.foldl_cons, ih, lookupLast]
    cases hr : lookupLast t k with
    | some v => rfl
    | none =>
      by_cases hp : p.1 = k
      · simp [dlookup_dinsert, hp, beq_iff_eq]
      · simp [dlookup_dinsert, hp, beq_iff_eq, Ne.symm hp]

theorem pydict_lookup {β : Type} (l : List (String × β)) (k : String) :
    dlookup (pydict l) k = lookupLast l k := by
  rw [pydict, foldl_dinsert_lookup]
  cases lookupLast l k <;> simp [dlookup]

theorem keys_dinsert {β : Type} :
    ∀ (m : List (String × β)) (k : String) (v : β),
      (dinsert m k v).map Prod.fst =
        if dcontains m k = true then m.map Prod.fst else m.map Prod.fst ++ [k] := by
  intro m
  induction m with
  | nil => intro k v; simp [dinsert, dcontains, dlookup]
  | cons p ps ih =>
    intro k v
    by_cases hp : p.1 = k
    · simp [dinsert, dcontains, dlookup, hp, beq_iff_eq]
    · have hbeq : (p.1 == k) = false := by simpa [beq_iff_eq] using hp
      rw [dinsert, if_neg (by simp [hbeq])]
      have hdc : dcontains (p :: ps) k = dcontains ps k := by
        simp [dcontains, dlookup, hbeq]
      rw [hdc, List.map_cons, ih]
      by_cases hc : dcontains ps k = true
      · rw [if_pos hc, if_pos hc, List.map_cons]
      · rw [if_neg hc, if_neg hc, List.map_cons, List.cons_append]

theorem pydict_keys_nodup {β : Type} :
    ∀ (l acc : List (String × β)), (acc.map Prod.fst).Nodup →
      ((l.foldl (fun m p => dinsert m p.1 p.2) acc).map Prod.fst).Nodup := by
  intro l
  induction l with
  | nil => intro acc h; simpa using h
  | cons p t ih =>
    intro acc h
    rw [List.foldl_cons]
    apply ih
    rw [keys_dinsert]
    by_cases hc : dcontains acc p.1 = true
    · rw [if_pos hc]; exact h
    · rw [if_neg hc]
      rw [List.nodup_append]
      refine ⟨h, List.nodup_singleton _, ?_⟩
      intro a ha hb
      rcases List.mem_singleton.mp hb with rfl
      exact hc ((dcontains_eq_mem_keys acc p.1).mpr ha)

theorem mem_dinsert {β : Type} :
    ∀ (m : List (String × β)) (k : String) (v : β) (x : String × β),
      x ∈ dinsert m k v → x ∈ m ∨ x = (k, v) := by
  intro m
  induction m with
  | nil => intro k v x h; simp [dinsert] at h; right; exact h
  | cons p ps ih =>
    intro k v x h
    rw [dinsert] at h
    by_cases hp : p.1 = k
    · rw [if_pos (by simpa [beq_iff_eq] using hp)] at h
      rcases List.mem_cons.mp h with heq | hm
      · right; exact heq
      · left; exact List.mem_cons_of_mem _ hm
    · rw [if_neg (by simpa [beq_iff_eq] using hp)] at h
      rcases List.mem_cons.mp h with heq | hm
      · left; exact heq ▸ List.mem_cons_self _ _
      · rcases ih k v x hm with hm' | heq
        · left; exact List.mem_cons_of_mem _ hm'
        · right; exact heq

theorem mem_pydict {β : Type} :
    ∀ (l acc : List (String × β)) (x : String × β),
      x ∈ l.foldl (fun m p => dinsert m p.1 p.2) acc → x ∈ acc ∨ x ∈ l := by
  intro l
  induction l with
  | nil => intro acc x h; left; exact h
  | cons p t ih =>
    intro acc x h
    rw [List.foldl_cons] at h
    rcases ih _ x h with hacc | ht
    · rcases mem_dinsert acc p.1 p.2 x hacc with hm | heq
      · left; exact hm
      · right
        have hx : x = p := by rw [heq]
        rw [hx]
        exact List.mem_cons_self p t
    · right; exact List.mem_cons_of_mem _ ht

theorem lookupLast_eq_dlookup_of_nodup {β : Type} :
    ∀ (m : List (String × β)), (m.map Prod.fst).Nodup →
      ∀ k, lookupLast m k = dlookup m k := by
  intro m
  induction m with
  | nil => intro _ k; rfl
  | cons p ps ih =>
    intro hn k
    rw [List.map_cons, List.nodup_cons] at hn
    rw [lookupLast, ih hn.2, dlookup]
    by_cases hp : p.1 = k
    · have : dlookup ps k = none := by
        rw [dlookup_none_iff]
        intro hm
        exact hn.1 (hp ▸ hm)
      simp [this, hp, beq_iff_eq]
    · cases hd : dlookup ps k with
      | some v => simp [hp, beq_iff_eq, Ne.symm hp]
      | none => simp [hp, beq_iff_eq, Ne.symm hp]

theorem lookupLast_map_vstr :
    ∀ (L : List (String × String)) (w : String),
      lookupLast (L.map (fun q => (q.1, Value.vstr q.2))) w =
        (lookupLast L w).map Value.vstr := by
  intro L
  induction L with
  | nil => intro w; rfl
  | cons p t ih =>
    intro w
    rw [List.map_cons, lookupLast, ih, lookupLast]
    cases lookupLast t w with
    | some v => rfl
    | none =>
      by_cases hp : p.1 = w
      · simp [hp, beq_iff_eq]
      · simp [hp, beq_iff_eq, Ne.symm hp]

/-! Helper lemmas about the interpreted pair list and the
`gtp_translations` loop. -/

theorem interp_pairs_8bit_id :
    ∀ (S : List (String × Value)),
      (∀ p ∈ S, ∃ s, p.2 = Value.vstr s) →
      interp_pairs interpret_8bit_stringS interpret_8bit_string S = .ok S := by
  intro S
  induction S with
  | nil => intro _; rfl
  | cons p t ih =>
    intro h
    obtain ⟨k, v⟩ := p
    rcases h (k, v) (List.mem_cons_self _ _) with ⟨s, hs⟩
    have hv : v = Value.vstr s := hs
    subst hv
    rw [interp_pairs]
    simp only [interpret_8bit_stringS, interpret_8bit_string]
    rw [ih (fun q hq => h q (List.mem_cons_of_mem _ hq))]

theorem ite_error_ne_ok {α : Type} (c : Prop) [Decidable c] (e1 e2 : String) (s : α) :
    (if c then (Except.error e1 : Except String α) else .error e2) ≠ .ok s := by
  by_cases h : c
  · rw [if_pos h]
    exact fun hh => Except.noConfusion hh
  · rw [if_neg h]
    exact fun hh => Except.noConfusion hh

theorem ite_error_cases {α : Type} (c : Prop) [Decidable c] (e1 e2 e : String)
    (h : (if c then (Except.error e1 : Except String α) else .error e2) = .error e) :
    e = e1 ∨ e = e2 := by
  by_cases hc : c
  · rw [if_pos hc] at h
    injection h with h'
    exact Or.inl h'.symm
  · rw [if_neg hc] at h
    injection h with h'
    exact Or.inr h'.symm

theorem gtp_check_pair_ok_iff (c1 : String) (c2 : Value) (s : String) :
    gtp_check_pair c1 c2 = .ok s ↔
      c2 = Value.vstr s ∧ is_well_formed_gtp_word c1 = true ∧
        is_well_formed_gtp_word s = true := by
  constructor
  · intro h
    cases c2 with
    | vstr s2 =>
      replace h : (if is_well_formed_gtp_word c1 = true then
          (if is_well_formed_gtp_word s2 = true then (Except.ok s2 : Except String String)
           else .error ("invalid command " ++ clean_string s2))
          else .error ("invalid command " ++ clean_string c1)) = .ok s := h
      by_cases h1 : is_well_formed_gtp_word c1 = true
      · rw [if_pos h1] at h
        by_cases h2 : is_well_formed_gtp_word s2 = true
        · rw [if_pos h2] at h
          injection h with h'
          subst h'
          exact ⟨rfl, h1, h2⟩
        · rw [if_neg h2] at h
          exact Except.noConfusion h
      · rw [if_neg h1] at h
        exact Except.noConfusion h
    | vlist l => exact absurd h (ite_error_ne_ok _ _ _ _)
    | vbool b => exact absurd h (ite_error_ne_ok _ _ _ _)
    | vnone => exact absurd h (ite_error_ne_ok _ _ _ _)
    | vpairs l => exact absurd h (ite_error_ne_ok _ _ _ _)
    | vplayer a kw => exact absurd h (ite_error_ne_ok _ _ _ _)
  · rintro ⟨hv, h1, h2⟩
    subst hv
    simp [gtp_check_pair, h1, h2]

theorem gtp_check_pair_error_shape (c1 : String) (c2 : Value) (e : String)
    (h : gtp_check_pair c1 c2 = .error e) :
    ∃ m, e = "invalid command " ++ m := by
  cases c2 with
  | vstr s2 =>
    replace h : (if is_well_formed_gtp_word c1 = true then
        (if is_well_formed_gtp_word s2 = true then (Except.ok s2 : Except String String)
         else .error ("invalid command " ++ clean_string s2))
        else .error ("invalid command " ++ clean_string c1)) = .error e := h
    by_cases h1 : is_well_formed_gtp_word c1 = true
    · rw [if_pos h1] at h
      by_cases h2 : is_well_formed_gtp_word s2 = true
      · rw [if_pos h2] at h
        exact Except.noConfusion h
      · rw [if_neg h2] at h
        injection h with h'
        exact ⟨clean_string s2, h'.symm⟩
    · rw [if_neg h1] at h
      injection h with h'
      exact ⟨clean_string c1, h'.symm⟩
  | vlist l =>
    rcases ite_error_cases _ _ _ _ h with h' | h'
    · exact ⟨pyStr (Value.vlist l), h'⟩
    · exact ⟨clean_string c1, h'⟩
  | vbool b =>
    rcases ite_error_cases _ _ _ _ h with h' | h'
    · exact ⟨pyStr (Value.vbool b), h'⟩
    · exact ⟨clean_string c1, h'⟩
  | vnone =>
    rcases ite_error_cases _ _ _ _ h with h' | h'
    · exact ⟨pyStr Value.vnone, h'⟩
    · exact ⟨clean_string c1, h'⟩
  | vpairs l =>
    rcases ite_error_cases _ _ _ _ h with h' | h'
    · exact ⟨pyStr (Value.vpairs l), h'⟩
    · exact ⟨clean_string c1, h'⟩
  | vplayer a kw =>
    rcases ite_error_cases _ _ _ _ h with h' | h'
    · exact ⟨pyStr (Value.vplayer a kw), h'⟩
    · exact ⟨clean_string c1, h'⟩

theorem gtp_loop_pairs :
    ∀ (S : List (String × Value)) (acc T : List (String × String)),
      gtp_loop acc S = .ok T →
      ∀ p ∈ S, ∃ s, p.2 = Value.vstr s ∧ is_well_formed_gtp_word p.1 = true ∧
        is_well_formed_gtp_word s = true := by
  intro S
  induction S with
  | nil => intro acc T _ p hp; simp at hp
  | cons q rest ih =>
    intro acc T h p hp
    obtain ⟨c1, c2⟩ := q
    rw [gtp_loop] at h
    cases hc : gtp_check_pair c1 c2 with
    | error e =>
      rw [hc] at h
      exact Except.noConfusion h
    | ok s2 =>
      rw [hc] at h
      rcases List.mem_cons.mp hp with heq | hp'
      · rcases (gtp_check_pair_ok_iff c1 c2 s2).mp hc with ⟨hv, h1, h2⟩
        rw [heq, hv]
        exact ⟨s2, rfl, h1, h2⟩
      · exact ih _ T h p hp'

theorem gtp_loop_spec :
    ∀ (S : List (String × Value)) (acc T : List (String × String)),
      gtp_loop acc S = .ok T →
      ∀ w, dlookup T w =
        match lookupLast S w with
        | some (Value.vstr s) => some s
        | _ => dlookup acc w := by
  intro S
  induction S with
  | nil =>
    intro acc T h w
    rw [gtp_loop] at h
    injection h with h'
    subst h'
    rfl
  | cons q rest ih =>
    intro acc T h w
    obtain ⟨c1, c2⟩ := q
    rw [gtp_loop] at h
    cases hc : gtp_check_pair c1 c2 with
    | error e =>
      rw [hc] at h
      exact Except.noConfusion h
    | ok s2 =>
      rw [hc] at h
      rcases (gtp_check_pair_ok_iff c1 c2 s2).mp hc with ⟨hv, h1, h2⟩
      subst hv
      have hrec := ih (dinsert acc c1 s2) T h w
      rw [lookupLast]
      cases hr : lookupLast rest w with
      | some v =>
        rcases gtp_loop_pairs rest _ _ h (w, v)
          (lookupLast_mem rest w v hr) with ⟨s, hs, _, _⟩
        have hv' : v = Value.vstr s := hs
        subst hv'
        rw [hr] at hrec
        simpa using hrec
      | none =>
        rw [hr] at hrec
        rw [dlookup_dinsert] at hrec
        by_cases hw : w = c1
        · rw [if_pos hw] at hrec
          simpa [hw, beq_iff_eq] using hrec
        · rw [if_neg hw] at hrec
          have hbeq : (c1 == w) = false := by
            simpa [beq_iff_eq] using Ne.symm hw
          simpa [hbeq] using hrec

theorem gtp_loop_ok :
    ∀ (S : List (String × Value)) (acc : List (String × String)),
      (∀ p ∈ S, ∃ s, p.2 = Value.vstr s ∧ is_well_formed_gtp_word p.1 = true ∧
        is_well_formed_gtp_word s = true) →
      ∃ T, gtp_loop acc S = .ok T := by
  intro S
  induction S with
  | nil => intro acc _; exact ⟨acc, rfl⟩
  | cons q rest ih =>
    intro acc h
    obtain ⟨c1, c2⟩ := q
    rcases h (c1, c2) (List.mem_cons_self _ _) with ⟨s, hs, h1, h2⟩
    have hv : c2 = Value.vstr s := hs
    have hc : gtp_check_pair c1 c2 = .ok s :=
      (gtp_check_pair_ok_iff c1 c2 s).mpr ⟨hv, h1, h2⟩
    rcases ih (dinsert acc c1 s) (fun p hp => h p (List.mem_cons_of_mem _ hp)) with ⟨T, hT⟩
    refine ⟨T, ?_⟩
    rw [gtp_loop, hc]
    exact hT

theorem gtp_loop_fails :
    ∀ (S : List (String × Value)) (acc : List (String × String)) (w v : String),
      (w, Value.vstr v) ∈ S →
      (is_well_formed_gtp_word w = false ∨ is_well_formed_gtp_word v = false) →
      ∃ m, gtp_loop acc S = .error ("invalid command " ++ m) := by
  intro S
  induction S with
  | nil => intro acc w v h _; simp at h
  | cons q rest ih =>
    intro acc w v hmem hbad
    obtain ⟨c1, c2⟩ := q
    cases hc : gtp_check_pair c1 c2 with
    | error e =>
      rcases gtp_check_pair_error_shape c1 c2 e hc with ⟨m, rfl⟩
      refine ⟨m, ?_⟩
      rw [gtp_loop, hc]
    | ok s2 =>
      rcases (gtp_check_pair_ok_iff c1 c2 s2).mp hc with ⟨hv, h1, h2⟩
      rcases List.mem_cons.mp hmem with heq | hm'
      · exfalso
        injection heq with he1 he2
        rw [hv] at he2
        injection he2 with he2'
        rcases hbad with hb | hb
        · rw [he1, h1] at hb
          exact Bool.noConfusion hb
        · rw [he2', h2] at hb
          exact Bool.noConfusion hb
      · rcases ih (dinsert acc c1 s2) w v hm' hbad with ⟨m, hm⟩
        refine ⟨m, ?_⟩
        rw [gtp_loop, hc]
        exact hm

theorem load_player_settings_cmd_gtp (g w : Value)
    (hg : interpret_map_of interpret_8bit_stringS interpret_8bit_string g = .ok w) :
    load_settings _player_settings
        [("command", .vstr "test"), ("gtp_translations", g)] true =
      .ok [("command", .vlist [.vstr "test"]), ("cwd", .vnone), ("environ", .vnone),
           ("is_reliable_scorer", .vbool true), ("allow_claim", .vbool false),
           ("gtp_translations", w), ("startup_gtp_commands", .vlist []),
           ("discard_stderr", .vbool false)] := by
  have hc : interpret_shlex_sequence (.vstr "test") = .ok (.vlist [.vstr "test"]) := rfl
  simp [load_settings, load_settings_go, _player_settings, dlookup, hc, hg]

theorem build_player_cmd_gtp (home : String) (comp : Competition) (code : String)
    (g : Value) (S : List (String × Value))
    (hg : interpret_map_of interpret_8bit_stringS interpret_8bit_string g =
      .ok (.vpairs S)) :
    build_player home comp code [("command", .vstr "test"), ("gtp_translations", g)] =
      match gtp_loop [] S with
      | .error e => .error (.controlFileError ("'gtp_translations': " ++ e))
      | .ok tr =>
        .ok { code := code, cmd_args := [.vstr "test"], cwd := none,
              environ := .vnone, is_reliable_scorer := .vbool true,
              allow_claim := .vbool false, startup_gtp_commands := [],
              gtp_translations := tr, discard_stderr := .vbool false } := by
  rw [build_player, load_player_settings_cmd_gtp g (.vpairs S) hg]
  show (match (gtp_loop [] S).mapError
      (fun e => PErr.controlFileError ("'gtp_translations': " ++ e)) with
    | Except.error e => (Except.error e : Except PErr Player)
    | Except.ok tr =>
      Except.ok { code := code, cmd_args := [.vstr "test"], cwd := none,
                  environ := .vnone, is_reliable_scorer := .vbool true,
                  allow_claim := .vbool false, startup_gtp_commands := [],
                  gtp_translations := tr, discard_stderr := .vbool false }) = _
  cases hl : gtp_loop [] S with
  | error e => rfl
  | ok tr => rfl

/-- C8 counterexample: the claim says any `gtp_translations` pair
containing an ill-formed word fails with a `ControlFileError`, but a pair
whose old-word is overwritten by a later pair is dropped by the mapping
interpreter (`dict(m)`: later duplicate key silently overwrites earlier)
before the well-formedness checks run: here the pair `("a", "b\x01")`
contains the ill-formed word `"b\x01"`, yet the build succeeds (with the
later pair winning). -/
theorem C8_counterexample :
    wellFormedV (.vstr "b\x01") = false ∧
    ((game_jobs_player_from_config "/h" (Competition.init "t") "t1" [.vstr "test"]
        [("gtp_translations", .vpairs [("a", .vstr "b\x01"), ("a", .vstr "ok")])]).1.map
      Player.gtp_translations) = .ok [("a", "ok")] :=
  ⟨rfl, rfl⟩

/-- C8 (amended): duplicate old-words in a `gtp_translations` sequence are
resolved first, the later pair winning (the mapping interpreter builds a
Python dict from the pairs).  If every word of every surviving pair is
well-formed, building the `Player` succeeds and the translation mapping
sends each old-word to the new-word of the last pair carrying it; if a
surviving pair contains an ill-formed word, building fails with a
`ControlFileError` prefixed `'gtp_translations'`.  (A pair fully shadowed
by a later pair with the same old-word is never checked — that is the
only change the counterexample forces.) -/
theorem C8_gtp_translations_amended (home : String) (comp : Competition)
    (code : String) (L : List (String × String)) :
    ((∀ w v, lookupLast L w = some v →
        is_well_formed_gtp_word w = true ∧ is_well_formed_gtp_word v = true) →
      ∃ p, (game_jobs_player_from_config home comp code []
              [("command", .vstr "test"),
               ("gtp_translations",
                .vpairs (L.map (fun q => (q.1, Value.vstr q.2))))]).1 = .ok p ∧
        ∀ w, dlookup p.gtp_translations w = lookupLast L w) ∧
    (∀ w v, lookupLast L w = some v →
      is_well_formed_gtp_word w = false ∨ is_well_formed_gtp_word v = false →
      ∃ m, (game_jobs_player_from_config home comp code []
              [("command", .vstr "test"),
               ("gtp_translations",
                .vpairs (L.map (fun q => (q.1, Value.vstr q.2))))]).1 =
        .error (.controlFileError ("'gtp_translations': invalid command " ++ m))) := by
  have hvstrS : ∀ p ∈ List.insertionSort keyLe
      (pydict (L.map (fun q => (q.1, Value.vstr q.2)))),
      ∃ s, p.2 = Value.vstr s := by
    intro p hp
    have hp2 : p ∈ pydict (L.map (fun q => (q.1, Value.vstr q.2))) :=
      (List.mem_insertionSort keyLe).mp hp
    rcases mem_pydict _ [] p hp2 with hfalse | hraw
    · simp at hfalse
    · rcases List.mem_map.mp hraw with ⟨q, _, hq⟩
      exact ⟨q.2, by rw [← hq]⟩
  have hi : interpret_map_of interpret_8bit_stringS interpret_8bit_string
      (.vpairs (L.map (fun q => (q.1, Value.vstr q.2)))) =
      .ok (.vpairs (List.insertionSort keyLe
        (pydict (L.map (fun q => (q.1, Value.vstr q.2)))))) := by
    rw [interpret_map_of, interp_pairs_8bit_id _ hvstrS]
  have hDn : ((pydict (L.map (fun q => (q.1, Value.vstr q.2)))).map Prod.fst).Nodup :=
    pydict_keys_nodup _ [] (by simp)
  have hSperm := List.perm_insertionSort keyLe
    (pydict (L.map (fun q => (q.1, Value.vstr q.2))))
  have hSn : ((List.insertionSort keyLe
      (pydict (L.map (fun q => (q.1, Value.vstr q.2))))).map Prod.fst).Nodup :=
    ((hSperm.map Prod.fst).nodup_iff).mpr hDn
  have hlookS : ∀ w, dlookup (List.insertionSort keyLe
      (pydict (L.map (fun q => (q.1, Value.vstr q.2))))) w =
      (lookupLast L w).map Value.vstr := by
    intro w
    rw [dlookup_eq_of_perm _ _ hSn hSperm w, pydict_lookup, lookupLast_map_vstr]
  have hb := build_player_cmd_gtp home comp code
    (.vpairs (L.map (fun q => (q.1, Value.vstr q.2))))
    (List.insertionSort keyLe (pydict (L.map (fun q => (q.1, Value.vstr q.2))))) hi
  constructor
  · intro hgood
    have hwf : ∀ p ∈ List.insertionSort keyLe
        (pydict (L.map (fun q => (q.1, Value.vstr q.2)))),
        ∃ s, p.2 = Value.vstr s ∧ is_well_formed_gtp_word p.1 = true ∧
          is_well_formed_gtp_word s = true := by
      intro p hp
      have hl : dlookup (List.insertionSort keyLe
          (pydict (L.map (fun q => (q.1, Value.vstr q.2))))) p.1 = some p.2 := by
        apply (dlookup_some_iff_mem _ hSn p.1 p.2).mpr
        have : (p.1, p.2) = p := Prod.mk.eta
        rw [this]
        exact hp
      rw [hlookS p.1] at hl
      cases hL : lookupLast L p.1 with
      | none => rw [hL] at hl; exact absurd hl (by simp)
      | some v =>
        rw [hL] at hl
        injection hl with hl'
        rcases hgood p.1 v hL with ⟨hw, hv⟩
        exact ⟨v, hl'.symm, hw, hv⟩
    rcases gtp_loop_ok _ [] hwf with ⟨T, hT⟩
    rw [hT] at hb
    replace hb : build_player home comp code
        [("command", .vstr "test"),
         ("gtp_translations", .vpairs (L.map (fun q => (q.1, Value.vstr q.2))))] =
      .ok { code := code, cmd_args := [.vstr "test"], cwd := none,
            environ := .vnone, is_reliable_scorer := .vbool true,
            allow_claim := .vbool false, startup_gtp_commands := [],
            gtp_translations := T, discard_stderr := .vbool false } := hb
    refine ⟨_, hb, ?_⟩
    intro w
    have hspec := gtp_loop_spec _ [] T hT w
    rw [lookupLast_eq_dlookup_of_nodup _ hSn, hlookS w] at hspec
    cases hL : lookupLast L w with
    | some v =>
      rw [hL] at hspec
      simpa using hspec
    | none =>
      rw [hL] at hspec
      simpa [dlookup] using hspec
  · intro w v hL hbad
    have hmemS : (w, Value.vstr v) ∈ List.insertionSort keyLe
        (pydict (L.map (fun q => (q.1, Value.vstr q.2)))) := by
      apply dlookup_mem _ w (Value.vstr v)
      rw [hlookS w, hL]
      rfl
    rcases gtp_loop_fails _ [] w v hmemS hbad with ⟨m, hm⟩
    rw [hm] at hb
    exact ⟨m, hb⟩

theorem C8_witness :
    (∃ p, (game_jobs_player_from_config "/h" (Competition.init "t") "t1" []
             [("command", .vstr "test"),
              ("gtp_translations", .vpairs [("a", .vstr "b\x01"), ("a", .vstr "ok")])]).1
           = .ok p ∧
       ∀ w, dlookup p.gtp_translations w =
         lookupLast [("a", "b\x01"), ("a", "ok")] w) ∧
    (∃ m, (game_jobs_player_from_config "/h" (Competition.init "t") "t1" []
             [("command", .vstr "test"),
              ("gtp_translations", .vpairs [("a", .vstr "b\x01")])]).1 =
      .error (.controlFileError ("'gtp_translations': invalid command " ++ m))) := by
  constructor
  · apply (C8_gtp_translations_amended "/h" (Competition.init "t") "t1"
      [("a", "b\x01"), ("a", "ok")]).1
    intro w v h
    by_cases hw : "a" = w
    · rw [← hw] at h
      replace h : (some "ok" : Option String) = some v := h
      injection h with h'
      rw [← hw, ← h']
      exact ⟨by decide, by decide⟩
    · replace h : (if ("a" == w) = true then some "ok" else none) = some v := by
        have hb : ("a" == w) = false := by simpa [beq_iff_eq] using hw
        rw [← h]
        show _ = lookupLast [("a", "b\x01"), ("a", "ok")] w
        simp [lookupLast, hb]
      have hb : ("a" == w) = false := by simpa [beq_iff_eq] using hw
      rw [hb] at h
      simp at h
  · exact (C8_gtp_translations_amended "/h" (Competition.init "t") "t1"
      [("a", "b\x01")]).2 "a" "b\x01" rfl (Or.inr (by decide))

end Gomill
